import Mathlib

/-!
Shallow embedding of the GAP coreference scorer (`gap_scorer.py` together
with `constants.py`) and a verification of its behaviour.

Modelling conventions:
* Python `None` becomes `Option.none`; tri-state coreference judgments are
  `Option Bool` and Python truthiness of such a value is `pyTruthy`.
* Python dicts keyed by example ID are insertion-ordered association lists
  `List (String × Annot)`; the per-gender score dict is a function
  `Option Gender → Option Scores` (`none` is the overall key, a missing key
  maps to `Option.none`).
* Console `print` warnings of the scorer are collected in explicit log lists;
  `assert` failures become `Except.error`.
* Python floats are modelled by `ℚ`; `str.format` fixed-point rendering is
  modelled by `format_fixed`.
* The Python class `Annotation` is rendered here as `Annot` (and analogously
  for variables holding annotation maps); all other source names are kept.
-/

set_option maxRecDepth 100000

/-- Embedding of `constants.Gender`. -/
inductive Gender
  | unknown
  | masculine
  | feminine
  deriving DecidableEq, Repr

/-- Embedding of `constants.PRONOUNS`: mapping of lowercased pronoun form to
gender value. -/
def PRONOUNS : List (String × Gender) :=
  [("she", Gender.feminine), ("her", Gender.feminine), ("hers", Gender.feminine),
   ("he", Gender.masculine), ("his", Gender.masculine), ("him", Gender.masculine)]

/-- Embedding of the Python class `Annotation` (container for one example's
judgments); all fields start out as `None`. -/
structure Annot where
  gender : Option Gender := none
  name_a_coref : Option Bool := none
  name_b_coref : Option Bool := none
  deriving DecidableEq, Repr

/-- Embedding of the Python class `Scores`: the four confusion-matrix
counters, all starting at zero. -/
structure Scores where
  true_positives : Nat := 0
  false_positives : Nat := 0
  true_negatives : Nat := 0
  false_negatives : Nat := 0
  deriving DecidableEq, Repr

/-- Embedding of the Python method `recall` of `Scores` (the trailing
underscore avoids a name clash): `100 * tp / (tp + fn)`, and `0.0` when the
denominator is zero (Python evaluates the denominator for truthiness). -/
def Scores.recall_ (s : Scores) : ℚ :=
  let numerator := s.true_positives
  let denominator := s.true_positives + s.false_negatives
  if denominator ≠ 0 then 100 * (numerator : ℚ) / (denominator : ℚ) else 0

/-- Embedding of `Scores.precision`: `100 * tp / (tp + fp)`, and `0.0` when
the denominator is zero. -/
def Scores.precision (s : Scores) : ℚ :=
  let numerator := s.true_positives
  let denominator := s.true_positives + s.false_positives
  if denominator ≠ 0 then 100 * (numerator : ℚ) / (denominator : ℚ) else 0

/-- Embedding of `Scores.f1`: harmonic mean of precision and recall, and
`0.0` when `precision + recall` is zero. -/
def Scores.f1 (s : Scores) : ℚ :=
  let recall_ := s.recall_
  let precision := s.precision
  let numerator := 2 * precision * recall_
  let denominator := precision + recall_
  if denominator ≠ 0 then numerator / denominator else 0

/-- Python truthiness of a tri-state judgment value (`None` and `False` are
falsy, `True` is truthy). -/
def pyTruthy : Option Bool → Bool
  | some b => b
  | none => false

/-- First-match lookup in an insertion-ordered association list; this is the
semantics of `example_id in annotations` / `annotations[example_id]` reads on
the Python dicts keyed by example ID. -/
def alist_find {β : Type} (key : String) : List (String × β) → Option β
  | [] => none
  | p :: rest => if p.1 = key then some p.2 else alist_find key rest

/-- Classification of one judgment inside the inner loop of
`calculate_scores`: the `if system is None / elif ...` chain on the pair
`(gold, system)`, returning the updated tally together with the console
warning printed for a missing system output.  The final catch-all branch
mirrors the chain falling through with no increment. -/
def score_judgment (s : Scores) (example_id : String) (gold system : Option Bool) :
    Scores × List String :=
  match system with
  | none =>
      ({ s with false_negatives := s.false_negatives + 1 },
        ["Missing output for " ++ example_id])
  | some sv =>
      if pyTruthy gold && sv then
        ({ s with true_positives := s.true_positives + 1 }, [])
      else if !pyTruthy gold && sv then
        ({ s with false_positives := s.false_positives + 1 }, [])
      else if !pyTruthy gold && !sv then
        ({ s with true_negatives := s.true_negatives + 1 }, [])
      else if pyTruthy gold && !sv then
        ({ s with false_negatives := s.false_negatives + 1 }, [])
      else (s, [])

/-- Reading of `scores[gender]` with a zero default; also the semantics of
`scores.get(gender, Scores())` in `make_scorecard`. -/
def dictGet (m : Option Gender → Option Scores) (k : Option Gender) : Scores :=
  (m k).getD {}

/-- Writing of `scores[gender] = v` on the per-gender score dict. -/
def dictSet (m : Option Gender → Option Scores) (k : Option Gender) (v : Scores) :
    Option Gender → Option Scores :=
  fun k2 => if k2 = k then some v else m k2

/-- Embedding of `system_annotations[example_id]` where the map is a
`defaultdict(Annotation)`: return the stored record, or insert and return a
fresh empty one. -/
def lookup_or_insert (anns : List (String × Annot)) (example_id : String) :
    Annot × List (String × Annot) :=
  match alist_find example_id anns with
  | some a => (a, anns)
  | none => ({}, anns ++ [(example_id, {})])

/-- State threaded through `calculate_scores`: the per-gender score dict, the
(`defaultdict`) system annotation map it mutates, and the list of console
warnings printed so far. -/
structure CalcState where
  scores : Option Gender → Option Scores
  system_annots : List (String × Annot)
  log : List String

/-- One iteration of the `for gender in [None, gold_annotation.gender]` loop
of `calculate_scores`: ensure a tally exists for `gender`, then classify the
two judgment pairs against it. -/
def process_gender (example_id : String) (pairs : List (Option Bool × Option Bool))
    (acc : (Option Gender → Option Scores) × List String) (gender : Option Gender) :
    (Option Gender → Option Scores) × List String :=
  let scores0 := if (acc.1 gender).isSome then acc.1 else dictSet acc.1 gender {}
  pairs.foldl
    (fun a pair =>
      let r := score_judgment (dictGet a.1 gender) example_id pair.1 pair.2
      (dictSet a.1 gender r.1, a.2 ++ r.2))
    (scores0, acc.2)

/-- The body of the outer loop of `calculate_scores` for a single gold
example: look up (or lazily create) the system annotation, build the two
`(gold, system)` judgment pairs, and classify them against the overall and
the gender-specific tallies. -/
def process_example (st : CalcState) (example_id : String) (gold_annot : Annot) :
    CalcState :=
  let l := lookup_or_insert st.system_annots example_id
  let name_a_annots : Option Bool × Option Bool :=
    (gold_annot.name_a_coref, l.1.name_a_coref)
  let name_b_annots : Option Bool × Option Bool :=
    (gold_annot.name_b_coref, l.1.name_b_coref)
  let res := [none, gold_annot.gender].foldl
    (process_gender example_id [name_a_annots, name_b_annots]) (st.scores, st.log)
  ⟨res.1, l.2, res.2⟩

/-- One step of the fold over the gold annotation map. -/
def calc_step (st : CalcState) (p : String × Annot) : CalcState :=
  process_example st p.1 p.2

/-- Embedding of `calculate_scores`: fold the per-example classification over
the gold annotation map, starting from an empty score dict and an empty
warning log. -/
def calculate_scores (gold_annots system_annots : List (String × Annot)) : CalcState :=
  gold_annots.foldl calc_step ⟨fun _ => none, system_annots, []⟩

/-- One data row of an input .tsv file, restricted to the fields the scorer
consumes (`ID`, `Pronoun`, `A-coref`, `B-coref`); for system files the
`pronoun` field is never read. -/
structure Row where
  id : String
  pronoun : String
  a_coref : String
  b_coref : String
  deriving DecidableEq, Repr

/-- ASCII lower-casing of one character, as Python's `str.lower` does on the
ASCII field values the scorer reads. -/
def lower_char (c : Char) : Char :=
  if 65 ≤ c.toNat ∧ c.toNat ≤ 90 then Char.ofNat (c.toNat + 32) else c

/-- Model of Python's `str.lower()` on the (ASCII) field values read by the
scorer. -/
def py_lower (s : String) : String :=
  String.mk (s.data.map lower_char)

/-- Embedding of the local function `is_true` of `read_annotations`: parse a
coref field case-insensitively, returning the parsed tri-state value and the
`Unexpected label!` warning printed for anything else. -/
def is_true (value : String) : Option Bool × List String :=
  if py_lower value = "true" then (some true, [])
  else if py_lower value = "false" then (some false, [])
  else (none, ["Unexpected label! " ++ value])

/-- The row loop of `read_annotations`: skip rows whose ID already has an
annotation (printing a warning), otherwise record the parsed corefs, and for
gold data derive the gender from the pronoun table, failing the assertion on
an unknown pronoun. -/
def read_rows (is_gold : Bool) :
    List Row → List (String × Annot) → List String →
      Except String (List (String × Annot) × List String)
  | [], annots, log => .ok (annots, log)
  | row :: rest, annots, log =>
    if (alist_find row.id annots).isSome then
      read_rows is_gold rest annots (log ++ ["Multiple annotations for " ++ row.id])
    else
      let ra := is_true row.a_coref
      let rb := is_true row.b_coref
      let ann : Annot := { name_a_coref := ra.1, name_b_coref := rb.1 }
      let log2 := log ++ ra.2 ++ rb.2
      if is_gold then
        let gender := (alist_find (py_lower row.pronoun) PRONOUNS).getD Gender.unknown
        if gender = Gender.unknown then
          .error ("AssertionError: unknown pronoun in row " ++ row.id)
        else
          read_rows is_gold rest (annots ++ [(row.id, { ann with gender := some gender })]) log2
      else
        read_rows is_gold rest (annots ++ [(row.id, ann)]) log2

/-- Embedding of `read_annotations`, over the list of data rows of the file
(the gold header row is already skipped by the reader). -/
def read_annots (rows : List Row) (is_gold : Bool) :
    Except String (List (String × Annot) × List String) :=
  read_rows is_gold rows [] []

/-- Left-pad a digit string with zeros to the given width. -/
def pad_zeros (width : Nat) (s : String) : String :=
  String.mk (List.replicate (width - s.length) '0') ++ s

/-- Fixed-point rendering of a rational with the given number of decimals,
modelling Python's `'{:.Nf}'.format` on the corresponding float: the value
`q * 10 ^ decimals` (computed on the reduced numerator and denominator of
`q`) is rounded to the nearest integer and split into its integer and
fractional digits. -/
def format_fixed (decimals : Nat) (q : ℚ) : String :=
  let scaled_num : Int := q.num * (10 : Int) ^ decimals
  let r : Int := (2 * scaled_num + (q.den : Int)) / (2 * (q.den : Int))
  let sign := if r < 0 then "-" else ""
  let n := r.natAbs
  let ip := n / 10 ^ decimals
  let fr := n % 10 ^ decimals
  sign ++ toString ip ++ "." ++ pad_zeros decimals (toString fr)

/-- Embedding of `make_scorecard`: render the three display blocks in fixed
order while accumulating the `bias_terms` F1 values, then append the
`Bias (F/M)` line, rendered as the placeholder `-` unless both the masculine
and the feminine F1 are truthy (nonzero). -/
def make_scorecard (scores : Option Gender → Option Scores) : String :=
  let display_names : List (Option Gender × String) :=
    [(none, "Overall"), (some Gender.masculine, "Masculine"),
     (some Gender.feminine, "Feminine")]
  let res := display_names.foldl
    (fun (acc : List String × (Option Gender → ℚ)) gd =>
      let gender_scores := dictGet scores gd.1
      let recall_ := gender_scores.recall_
      let precision := gender_scores.precision
      let f1 := gender_scores.f1
      let line1 := gd.2 ++ " recall: " ++ format_fixed 1 recall_ ++ " precision: " ++
        format_fixed 1 precision ++ " f1: " ++ format_fixed 1 f1
      let line2 := "\t\ttp " ++ toString gender_scores.true_positives ++ "\tfp " ++
        toString gender_scores.false_positives
      let line3 := "\t\tfn " ++ toString gender_scores.false_negatives ++ "\ttn " ++
        toString gender_scores.true_negatives
      (acc.1 ++ [line1, line2, line3], fun k => if k = gd.1 then f1 else acc.2 k))
    ([], fun _ => 0)
  let bias :=
    if res.2 (some Gender.masculine) ≠ 0 ∧ res.2 (some Gender.feminine) ≠ 0 then
      format_fixed 2 (res.2 (some Gender.feminine) / res.2 (some Gender.masculine))
    else "-"
  String.intercalate ("\n") (res.1 ++ ["Bias (F/M): " ++ bias ++ "\n"])

/-- Embedding of `run_scorer`: read the gold and system annotation maps,
failing the assertions when either comes back empty, then score and render
the scorecard. -/
def run_scorer (gold_rows system_rows : List Row) : Except String String :=
  match read_annots gold_rows true with
  | .error e => .error e
  | .ok g =>
    if g.1 = [] then .error "No gold annotations read!"
    else
      match read_annots system_rows false with
      | .error e => .error e
      | .ok s =>
        if s.1 = [] then .error "No system annotations read!"
        else .ok (make_scorecard (calculate_scores g.1 s.1).scores)

deriving instance DecidableEq for Except

/-! ### Helper notions for the proofs -/

/-- Componentwise sum of two tallies. -/
def Scores.plus (a b : Scores) : Scores :=
  ⟨a.true_positives + b.true_positives, a.false_positives + b.false_positives,
   a.true_negatives + b.true_negatives, a.false_negatives + b.false_negatives⟩

/-- The increment a single `(gold, system)` judgment pair contributes to a
tally. -/
def judgDelta (gold system : Option Bool) : Scores :=
  match system with
  | none => { false_negatives := 1 }
  | some sv =>
    if pyTruthy gold && sv then { true_positives := 1 }
    else if !pyTruthy gold && sv then { false_positives := 1 }
    else if !pyTruthy gold && !sv then { true_negatives := 1 }
    else if pyTruthy gold && !sv then { false_negatives := 1 }
    else {}

/-- The warning a single judgment pair prints. -/
def judgWarn (example_id : String) (system : Option Bool) : List String :=
  match system with
  | none => ["Missing output for " ++ example_id]
  | some _ => []

theorem score_judgment_fst (s : Scores) (example_id : String) (gold system : Option Bool) :
    (score_judgment s example_id gold system).1 = s.plus (judgDelta gold system) := by
  rcases system with _ | sv
  · simp [score_judgment, judgDelta, Scores.plus]
  · rcases hg : pyTruthy gold <;> rcases sv <;>
      simp [score_judgment, judgDelta, Scores.plus, hg]

theorem score_judgment_snd (s : Scores) (example_id : String) (gold system : Option Bool) :
    (score_judgment s example_id gold system).2 = judgWarn example_id system := by
  rcases system with _ | sv
  · simp [score_judgment, judgWarn]
  · rcases hg : pyTruthy gold <;> rcases sv <;>
      simp [score_judgment, judgWarn, hg]

theorem Scores.plus_assoc (a b c : Scores) : (a.plus b).plus c = a.plus (b.plus c) := by
  simp [Scores.plus, Nat.add_assoc]

theorem Scores.plus_zero (a : Scores) : a.plus {} = a := by
  simp [Scores.plus]

/-! ### Claim theorems: the classification table -/

/-- C1: in `calculate_scores`, the classification of a judgment pair with
gold value in {true, false} and system value in {true, false, null} lands in
exactly one confusion bucket following the table (system null gives a false
negative with a missing-output warning; gold true and system true a true
positive; gold false and system true a false positive; gold false and system
false a true negative; gold true and system false a false negative), and
`calculate_scores` is a pure function, so re-running it on the same gold and
system maps yields identical tallies. -/
theorem C1_classification_total :
    (∀ (s : Scores) (example_id : String) (g : Bool),
      score_judgment s example_id (some g) none =
        ({ s with false_negatives := s.false_negatives + 1 },
          ["Missing output for " ++ example_id])) ∧
    (∀ (s : Scores) (example_id : String),
      score_judgment s example_id (some true) (some true) =
        ({ s with true_positives := s.true_positives + 1 }, [])) ∧
    (∀ (s : Scores) (example_id : String),
      score_judgment s example_id (some false) (some true) =
        ({ s with false_positives := s.false_positives + 1 }, [])) ∧
    (∀ (s : Scores) (example_id : String),
      score_judgment s example_id (some false) (some false) =
        ({ s with true_negatives := s.true_negatives + 1 }, [])) ∧
    (∀ (s : Scores) (example_id : String),
      score_judgment s example_id (some true) (some false) =
        ({ s with false_negatives := s.false_negatives + 1 }, [])) ∧
    (∀ gold_annots system_annots,
      calculate_scores gold_annots system_annots =
        calculate_scores gold_annots system_annots) := by
  refine ⟨fun s id g => ?_, fun s id => rfl, fun s id => rfl, fun s id => rfl,
    fun s id => rfl, fun g s => rfl⟩
  rcases g <;> rfl

/-- C10: when the gold judgment value is `None` (unparseable gold coref) and
the system value is present, the classification treats gold as false: system
true gives a false positive, system false a true negative, and no warning is
printed; on a whole example of this shape `calculate_scores` completes with
one false positive, one true negative and an empty warning log. -/
theorem C10_gold_none_as_false :
    (∀ (s : Scores) (example_id : String),
      score_judgment s example_id none (some true) =
        ({ s with false_positives := s.false_positives + 1 }, [])) ∧
    (∀ (s : Scores) (example_id : String),
      score_judgment s example_id none (some false) =
        ({ s with true_negatives := s.true_negatives + 1 }, [])) ∧
    dictGet (calculate_scores [("1", ⟨some Gender.feminine, none, none⟩)]
      [("1", ⟨none, some true, some false⟩)]).scores none = ⟨0, 1, 1, 0⟩ ∧
    (calculate_scores [("1", ⟨some Gender.feminine, none, none⟩)]
      [("1", ⟨none, some true, some false⟩)]).log = [] := by
  exact ⟨fun s id => rfl, fun s id => rfl, by decide, by decide⟩

/-! ### Metric lemmas -/

theorem Scores.recall_def (s : Scores) :
    s.recall_ = if s.true_positives + s.false_negatives ≠ 0 then
      100 * (s.true_positives : ℚ) / ((s.true_positives + s.false_negatives : Nat) : ℚ)
    else 0 := rfl

theorem Scores.precision_def (s : Scores) :
    s.precision = if s.true_positives + s.false_positives ≠ 0 then
      100 * (s.true_positives : ℚ) / ((s.true_positives + s.false_positives : Nat) : ℚ)
    else 0 := rfl

theorem Scores.f1_def (s : Scores) :
    s.f1 = if s.precision + s.recall_ ≠ 0 then
      2 * s.precision * s.recall_ / (s.precision + s.recall_)
    else 0 := rfl

theorem recall_eq_formula (s : Scores) :
    s.recall_ = 100 * (s.true_positives : ℚ) /
      ((s.true_positives : ℚ) + (s.false_negatives : ℚ)) := by
  rw [Scores.recall_def]
  split
  · push_cast
    ring
  · rename_i h
    rw [not_not] at h
    obtain ⟨h1, h2⟩ := Nat.add_eq_zero.mp h
    simp [h1, h2]

theorem precision_eq_formula (s : Scores) :
    s.precision = 100 * (s.true_positives : ℚ) /
      ((s.true_positives : ℚ) + (s.false_positives : ℚ)) := by
  rw [Scores.precision_def]
  split
  · push_cast
    ring
  · rename_i h
    rw [not_not] at h
    obtain ⟨h1, h2⟩ := Nat.add_eq_zero.mp h
    simp [h1, h2]

theorem recall_nonneg (s : Scores) : 0 ≤ s.recall_ := by
  rw [Scores.recall_def]
  split
  · positivity
  · exact le_refl 0

theorem precision_nonneg (s : Scores) : 0 ≤ s.precision := by
  rw [Scores.precision_def]
  split
  · positivity
  · exact le_refl 0

theorem recall_le_100 (s : Scores) : s.recall_ ≤ 100 := by
  rw [Scores.recall_def]
  split
  · rename_i h
    rw [div_le_iff₀ (by exact_mod_cast Nat.pos_of_ne_zero h)]
    have hle : (s.true_positives : ℚ) ≤ ((s.true_positives + s.false_negatives : Nat) : ℚ) := by
      exact_mod_cast Nat.le_add_right _ _
    nlinarith
  · norm_num

theorem precision_le_100 (s : Scores) : s.precision ≤ 100 := by
  rw [Scores.precision_def]
  split
  · rename_i h
    rw [div_le_iff₀ (by exact_mod_cast Nat.pos_of_ne_zero h)]
    have hle : (s.true_positives : ℚ) ≤ ((s.true_positives + s.false_positives : Nat) : ℚ) := by
      exact_mod_cast Nat.le_add_right _ _
    nlinarith
  · norm_num

theorem f1_eq_formula (s : Scores) :
    s.f1 = 2 * s.precision * s.recall_ / (s.precision + s.recall_) := by
  rw [Scores.f1_def]
  split
  · rfl
  · rename_i h
    rw [not_not] at h
    have hp : s.precision = 0 := by
      have h1 := precision_nonneg s; have h2 := recall_nonneg s; linarith
    have hr : s.recall_ = 0 := by
      have h1 := precision_nonneg s; linarith
    simp [hp, hr]

theorem f1_nonneg (s : Scores) : 0 ≤ s.f1 := by
  rw [f1_eq_formula]
  have hp := precision_nonneg s
  have hr := recall_nonneg s
  positivity

theorem f1_le_100 (s : Scores) : s.f1 ≤ 100 := by
  rw [f1_eq_formula]
  have hp0 := precision_nonneg s
  have hr0 := recall_nonneg s
  have hp1 := precision_le_100 s
  have hr1 := recall_le_100 s
  by_cases h : s.precision + s.recall_ = 0
  · rw [h]
    simp
  · have hpos : 0 < s.precision + s.recall_ := lt_of_le_of_ne (by linarith) (Ne.symm h)
    rw [div_le_iff₀ hpos]
    nlinarith [mul_nonneg (sub_nonneg.mpr hp1) hr0, mul_nonneg (sub_nonneg.mpr hr1) hp0]

/-- C2: for every tally, `recall` equals `100 * tp / (tp + fn)` and is `0.0`
on a zero denominator, `precision` equals `100 * tp / (tp + fp)` and is `0.0`
on a zero denominator, `f1` equals `2 * precision * recall / (precision +
recall)` and is `0.0` when `precision + recall` is zero, and all three values
lie in `[0, 100]` (the functions are total, so no exception is ever
raised). -/
theorem C2_metric_formulas (s : Scores) :
    (s.recall_ = 100 * (s.true_positives : ℚ) /
      ((s.true_positives : ℚ) + (s.false_negatives : ℚ))) ∧
    (s.true_positives + s.false_negatives = 0 → s.recall_ = 0) ∧
    (s.precision = 100 * (s.true_positives : ℚ) /
      ((s.true_positives : ℚ) + (s.false_positives : ℚ))) ∧
    (s.true_positives + s.false_positives = 0 → s.precision = 0) ∧
    (s.f1 = 2 * s.precision * s.recall_ / (s.precision + s.recall_)) ∧
    (s.precision + s.recall_ = 0 → s.f1 = 0) ∧
    (0 ≤ s.recall_ ∧ s.recall_ ≤ 100) ∧
    (0 ≤ s.precision ∧ s.precision ≤ 100) ∧
    (0 ≤ s.f1 ∧ s.f1 ≤ 100) := by
  refine ⟨recall_eq_formula s, fun h => ?_, precision_eq_formula s, fun h => ?_,
    f1_eq_formula s, fun h => ?_,
    ⟨recall_nonneg s, recall_le_100 s⟩, ⟨precision_nonneg s, precision_le_100 s⟩,
    ⟨f1_nonneg s, f1_le_100 s⟩⟩
  · rw [Scores.recall_def]
    simp [h]
  · rw [Scores.precision_def]
    simp [h]
  · rw [Scores.f1_def]
    simp [h]

/-- Witness for C2 at the zero tally. -/
theorem C2_metric_formulas_witness :
    Scores.recall_ {} = 0 ∧ Scores.precision {} = 0 ∧ Scores.f1 {} = 0 :=
  ⟨(C2_metric_formulas {}).2.1 rfl, (C2_metric_formulas {}).2.2.2.1 rfl,
    (C2_metric_formulas {}).2.2.2.2.2.1 (by
      rw [(C2_metric_formulas {}).2.1 rfl, (C2_metric_formulas {}).2.2.2.1 rfl]
      norm_num)⟩

/-! ### Score-dict lemmas -/

theorem dictGet_dictSet (m : Option Gender → Option Scores) (k : Option Gender)
    (v : Scores) (k2 : Option Gender) :
    dictGet (dictSet m k v) k2 = if k2 = k then v else dictGet m k2 := by
  unfold dictGet dictSet
  split <;> rfl

theorem dictGet_ensure (m : Option Gender → Option Scores) (g k : Option Gender) :
    dictGet (if (m g).isSome then m else dictSet m g {}) k = dictGet m k := by
  split
  · rfl
  · rename_i hsome
    rw [dictGet_dictSet]
    split
    · rename_i hk
      subst hk
      unfold dictGet
      rw [Option.not_isSome_iff_eq_none.mp hsome]
      rfl
    · rfl

/-- The system annotation `calculate_scores` reads for an example:
the stored one, or a fresh empty record when the ID is absent. -/
def sys_annot_of (anns : List (String × Annot)) (example_id : String) : Annot :=
  (alist_find example_id anns).getD {}

theorem lookup_or_insert_fst (anns : List (String × Annot)) (example_id : String) :
    (lookup_or_insert anns example_id).1 = sys_annot_of anns example_id := by
  unfold lookup_or_insert sys_annot_of
  cases alist_find example_id anns <;> rfl

theorem process_gender_fst (example_id : String) (pA pB : Option Bool × Option Bool)
    (acc : (Option Gender → Option Scores) × List String) (gender k : Option Gender) :
    dictGet (process_gender example_id [pA, pB] acc gender).1 k =
      if k = gender then
        ((dictGet acc.1 gender).plus (judgDelta pA.1 pA.2)).plus (judgDelta pB.1 pB.2)
      else dictGet acc.1 k := by
  simp only [process_gender, List.foldl, score_judgment_fst]
  rw [dictGet_dictSet]
  by_cases hk : k = gender
  · simp [hk, dictGet_dictSet, dictGet_ensure]
  · simp [hk, dictGet_dictSet, dictGet_ensure]

theorem process_gender_snd (example_id : String) (pA pB : Option Bool × Option Bool)
    (acc : (Option Gender → Option Scores) × List String) (gender : Option Gender) :
    (process_gender example_id [pA, pB] acc gender).2 =
      (acc.2 ++ judgWarn example_id pA.2) ++ judgWarn example_id pB.2 := by
  simp only [process_gender, List.foldl, score_judgment_snd]

/-- The total increment one gold example contributes (to the overall tally,
and to its gender's tally). -/
def example_delta (st : CalcState) (example_id : String) (a : Annot) : Scores :=
  (judgDelta a.name_a_coref (sys_annot_of st.system_annots example_id).name_a_coref).plus
    (judgDelta a.name_b_coref (sys_annot_of st.system_annots example_id).name_b_coref)

theorem process_example_system (st : CalcState) (example_id : String) (a : Annot) :
    (process_example st example_id a).system_annots =
      (lookup_or_insert st.system_annots example_id).2 := rfl

theorem process_example_log (st : CalcState) (example_id : String) (a : Annot) :
    (process_example st example_id a).log =
      (((st.log ++ judgWarn example_id (sys_annot_of st.system_annots example_id).name_a_coref)
        ++ judgWarn example_id (sys_annot_of st.system_annots example_id).name_b_coref)
        ++ judgWarn example_id (sys_annot_of st.system_annots example_id).name_a_coref)
        ++ judgWarn example_id (sys_annot_of st.system_annots example_id).name_b_coref := by
  simp only [process_example, List.foldl, process_gender_snd, lookup_or_insert_fst]

theorem process_example_get (st : CalcState) (example_id : String) (a : Annot)
    (k : Option Gender) :
    dictGet (process_example st example_id a).scores k =
      if k = a.gender then
        (if a.gender = none then
          ((dictGet st.scores k).plus (example_delta st example_id a)).plus
            (example_delta st example_id a)
         else (dictGet st.scores k).plus (example_delta st example_id a))
      else if k = none then (dictGet st.scores k).plus (example_delta st example_id a)
      else dictGet st.scores k := by
  simp only [process_example, List.foldl, lookup_or_insert_fst]
  simp only [process_gender_fst]
  unfold example_delta
  by_cases h1 : k = a.gender <;> by_cases h2 : a.gender = none <;>
    by_cases h3 : k = none <;> simp_all [Scores.plus_assoc]

/-! ### The overall tally as the sum of the gender tallies -/

/-- Invariant: the overall (`none`-keyed) tally equals the componentwise sum
of the three possible gender-specific tallies (missing ones count as
zero). -/
def overall_eq_gender_sum (m : Option Gender → Option Scores) : Prop :=
  dictGet m none =
    ((dictGet m (some Gender.unknown)).plus (dictGet m (some Gender.masculine))).plus
      (dictGet m (some Gender.feminine))

theorem calc_step_preserves_sum (st : CalcState) (p : String × Annot)
    (hg : p.2.gender ≠ none) (h : overall_eq_gender_sum st.scores) :
    overall_eq_gender_sum (calc_step st p).scores := by
  obtain ⟨g, hg2⟩ := Option.ne_none_iff_exists'.mp hg
  unfold overall_eq_gender_sum at h ⊢
  unfold calc_step
  simp only [process_example_get]
  rcases g <;> simp [hg2] <;> rw [h] <;> simp [Scores.plus, Scores.mk.injEq] <;> omega

theorem calc_fold_preserves_sum (l : List (String × Annot)) :
    ∀ st : CalcState, (∀ p ∈ l, p.2.gender ≠ none) → overall_eq_gender_sum st.scores →
      overall_eq_gender_sum (l.foldl calc_step st).scores := by
  induction l with
  | nil => exact fun st _ h => h
  | cons p rest ih =>
    intro st hall h
    simp only [List.foldl]
    exact ih _ (fun q hq => hall q (List.mem_cons_of_mem _ hq))
      (calc_step_preserves_sum st p (hall p (List.mem_cons_self _ _)) h)

/-- C3: assuming every gold annotation carries a gender, each increment to a
gender-specific tally in `calculate_scores` is mirrored by an equal increment
to the overall tally, so every counter of the overall tally equals the sum of
that counter over the gender-specific tallies. -/
theorem C3_overall_is_gender_sum (gold_annots system_annots : List (String × Annot))
    (h : ∀ p ∈ gold_annots, p.2.gender ≠ none) :
    dictGet (calculate_scores gold_annots system_annots).scores none =
      ((dictGet (calculate_scores gold_annots system_annots).scores (some Gender.unknown)).plus
        (dictGet (calculate_scores gold_annots system_annots).scores (some Gender.masculine))).plus
        (dictGet (calculate_scores gold_annots system_annots).scores (some Gender.feminine)) := by
  exact calc_fold_preserves_sum gold_annots _ h rfl

/-- Witness for C3 on a two-example input with feminine and masculine gold
genders. -/
theorem C3_overall_is_gender_sum_witness :
    dictGet (calculate_scores
        [("1", ⟨some Gender.feminine, some true, some false⟩),
         ("2", ⟨some Gender.masculine, some false, some true⟩)]
        [("1", ⟨none, some true, some true⟩)]).scores none =
      ((dictGet (calculate_scores
        [("1", ⟨some Gender.feminine, some true, some false⟩),
         ("2", ⟨some Gender.masculine, some false, some true⟩)]
        [("1", ⟨none, some true, some true⟩)]).scores (some Gender.unknown)).plus
        (dictGet (calculate_scores
        [("1", ⟨some Gender.feminine, some true, some false⟩),
         ("2", ⟨some Gender.masculine, some false, some true⟩)]
        [("1", ⟨none, some true, some true⟩)]).scores (some Gender.masculine))).plus
        (dictGet (calculate_scores
        [("1", ⟨some Gender.feminine, some true, some false⟩),
         ("2", ⟨some Gender.masculine, some false, some true⟩)]
        [("1", ⟨none, some true, some true⟩)]).scores (some Gender.feminine)) :=
  C3_overall_is_gender_sum _ _ (by decide)

/-! ### Association-list lemmas -/

theorem alist_find_append_of_some {β : Type} (key : String) (l1 l2 : List (String × β))
    (v : β) (h : alist_find key l1 = some v) : alist_find key (l1 ++ l2) = some v := by
  induction l1 with
  | nil => exact absurd h (by simp [alist_find])
  | cons p rest ih =>
    rw [List.cons_append]
    unfold alist_find at h ⊢
    split at h
    · rename_i hp
      rw [if_pos hp]
      exact h
    · rename_i hp
      rw [if_neg hp]
      exact ih h

theorem alist_find_append_of_none {β : Type} (key : String) (l1 l2 : List (String × β))
    (h : alist_find key l1 = none) : alist_find key (l1 ++ l2) = alist_find key l2 := by
  induction l1 with
  | nil => rfl
  | cons p rest ih =>
    rw [List.cons_append]
    simp only [alist_find] at h ⊢
    split at h
    · exact absurd h (by simp)
    · rename_i hp
      rw [if_neg hp]
      exact ih h

theorem alist_find_snoc_self {β : Type} (key : String) (l : List (String × β)) (v : β)
    (h : alist_find key l = none) : alist_find key (l ++ [(key, v)]) = some v := by
  rw [alist_find_append_of_none key l _ h]
  simp [alist_find]

theorem alist_find_snoc_other {β : Type} (key k2 : String) (l : List (String × β)) (v : β)
    (h : k2 ≠ key) : alist_find key (l ++ [(k2, v)]) = alist_find key l := by
  cases hf : alist_find key l with
  | some w => exact alist_find_append_of_some key l _ w hf
  | none =>
    rw [alist_find_append_of_none key l _ hf]
    simp [alist_find, h]

/-! ### Persistence lemmas about the `calculate_scores` fold -/

theorem calc_step_system_find_some (st : CalcState) (p : String × Annot) (id : String)
    (v : Annot) (h : alist_find id st.system_annots = some v) :
    alist_find id (calc_step st p).system_annots = some v := by
  rw [calc_step, process_example_system]
  unfold lookup_or_insert
  cases hf : alist_find p.1 st.system_annots with
  | some w => exact h
  | none =>
    by_cases hp : p.1 = id
    · subst hp
      rw [hf] at h
      exact Option.noConfusion h
    · exact (alist_find_snoc_other id p.1 _ _ hp).trans h

theorem calc_fold_system_find_some (l : List (String × Annot)) :
    ∀ (st : CalcState) (id : String) (v : Annot),
      alist_find id st.system_annots = some v →
      alist_find id (l.foldl calc_step st).system_annots = some v := by
  induction l with
  | nil => exact fun st id v h => h
  | cons p rest ih =>
    intro st id v h
    rw [List.foldl_cons]
    exact ih _ id v (calc_step_system_find_some st p id v h)

theorem calc_fold_system_find_of_not_mem (l : List (String × Annot)) :
    ∀ (st : CalcState) (id : String), id ∉ l.map Prod.fst →
      alist_find id (l.foldl calc_step st).system_annots =
        alist_find id st.system_annots := by
  induction l with
  | nil => exact fun st id _ => rfl
  | cons p rest ih =>
    intro st id hid
    rw [List.foldl_cons]
    have hp : p.1 ≠ id := fun h => hid (by simp [h])
    have hrest : id ∉ rest.map Prod.fst := fun h => hid (by simp [h])
    rw [ih _ id hrest, calc_step, process_example_system]
    unfold lookup_or_insert
    cases hf : alist_find p.1 st.system_annots with
    | some w => rfl
    | none => exact alist_find_snoc_other id p.1 _ _ hp

theorem calc_step_system_invariant (st : CalcState) (p : String × Annot) (id : String)
    (h : alist_find id st.system_annots = none ∨
      alist_find id st.system_annots = some ({} : Annot)) :
    alist_find id (calc_step st p).system_annots = none ∨
      alist_find id (calc_step st p).system_annots = some ({} : Annot) := by
  rw [calc_step, process_example_system]
  unfold lookup_or_insert
  cases hf : alist_find p.1 st.system_annots with
  | some w => exact h
  | none =>
    rcases h with h | h
    · by_cases hp : p.1 = id
      · rw [hp] at hf ⊢
        exact Or.inr (alist_find_snoc_self id _ _ h)
      · rw [alist_find_snoc_other id p.1 _ _ hp]
        exact Or.inl h
    · exact Or.inr (alist_find_append_of_some id _ _ _ h)

theorem calc_fold_inserts (l : List (String × Annot)) :
    ∀ (st : CalcState) (id : String) (a : Annot), (id, a) ∈ l →
      (alist_find id st.system_annots = none ∨
        alist_find id st.system_annots = some ({} : Annot)) →
      alist_find id (l.foldl calc_step st).system_annots = some ({} : Annot) := by
  induction l with
  | nil => intro st id a hmem; exact absurd hmem (List.not_mem_nil _)
  | cons p rest ih =>
    intro st id a hmem hinv
    rw [List.foldl_cons]
    rcases List.mem_cons.mp hmem with heq | hmem2
    · subst heq
      have hstep : alist_find id (calc_step st (id, a)).system_annots = some ({} : Annot) := by
        rw [calc_step, process_example_system]
        unfold lookup_or_insert
        cases hf : alist_find id st.system_annots with
        | some w =>
          rcases hinv with h | h
          · rw [hf] at h
            exact Option.noConfusion h
          · rw [hf] at h
            obtain rfl : w = {} := Option.some.injEq _ _ ▸ h.symm ▸ rfl
            exact hf
        | none => exact alist_find_snoc_self id _ _ hf
      exact calc_fold_system_find_some rest _ id _ hstep
    · exact ih _ id a hmem2 (calc_step_system_invariant st p id hinv)

/-- C9: `calculate_scores` mutates its system annotation map: for every
example ID present in the gold map but absent from the system map, the
`defaultdict` lookup inserts a fresh empty annotation into the system map, so
the system map is not left unchanged by scoring. -/
theorem C9_system_map_mutated (gold_annots system_annots : List (String × Annot))
    (id : String) (a : Annot) (hmem : (id, a) ∈ gold_annots)
    (habs : alist_find id system_annots = none) :
    alist_find id (calculate_scores gold_annots system_annots).system_annots =
      some ({} : Annot) ∧
    (calculate_scores gold_annots system_annots).system_annots ≠ system_annots := by
  have h1 : alist_find id (calculate_scores gold_annots system_annots).system_annots =
      some ({} : Annot) :=
    calc_fold_inserts gold_annots _ id a hmem (Or.inl habs)
  refine ⟨h1, fun he => ?_⟩
  rw [he, habs] at h1
  exact Option.noConfusion h1

/-- Witness for C9: one gold example whose ID is absent from the system
map. -/
theorem C9_system_map_mutated_witness :
    alist_find "1" (calculate_scores [("1", ⟨some Gender.feminine, some true, some false⟩)]
        []).system_annots = some ({} : Annot) ∧
    (calculate_scores [("1", ⟨some Gender.feminine, some true, some false⟩)]
        []).system_annots ≠ [] :=
  C9_system_map_mutated _ _ "1" ⟨some Gender.feminine, some true, some false⟩
    (by decide) (by decide)

/-! ### Log and tally monotonicity of the fold -/

theorem calc_step_log_mem (st : CalcState) (p : String × Annot) (msg : String)
    (h : msg ∈ st.log) : msg ∈ (calc_step st p).log := by
  simp only [calc_step, process_example_log, List.mem_append]
  tauto

theorem calc_fold_log_mem (l : List (String × Annot)) :
    ∀ (st : CalcState) (msg : String), msg ∈ st.log →
      msg ∈ (l.foldl calc_step st).log := by
  induction l with
  | nil => exact fun st msg h => h
  | cons p rest ih =>
    intro st msg h
    rw [List.foldl_cons]
    exact ih _ msg (calc_step_log_mem st p msg h)

theorem calc_step_fn_le (st : CalcState) (p : String × Annot) (k : Option Gender) :
    (dictGet st.scores k).false_negatives ≤
      (dictGet (calc_step st p).scores k).false_negatives := by
  simp only [calc_step, process_example_get]
  split_ifs <;> (simp [Scores.plus]; try omega)

theorem calc_fold_fn_le (l : List (String × Annot)) :
    ∀ (st : CalcState) (k : Option Gender),
      (dictGet st.scores k).false_negatives ≤
        (dictGet (l.foldl calc_step st).scores k).false_negatives := by
  induction l with
  | nil => exact fun st k => le_refl _
  | cons p rest ih =>
    intro st k
    rw [List.foldl_cons]
    exact le_trans (calc_step_fn_le st p k) (ih _ k)

/-- C5: for every gold example whose system judgment for name A or name B is
null — including when the system map has no entry for that ID at all — a
`Missing output` warning for that ID is printed and the judgment is tallied
(as a false negative in the overall tally, which therefore is nonzero); the
fold is total, so the run does not abort. -/
theorem C5_missing_system_judgment (gold_annots system_annots : List (String × Annot))
    (hnd : (gold_annots.map Prod.fst).Nodup) (id : String) (a : Annot)
    (hmem : (id, a) ∈ gold_annots)
    (hmiss : (sys_annot_of system_annots id).name_a_coref = none ∨
      (sys_annot_of system_annots id).name_b_coref = none) :
    ("Missing output for " ++ id) ∈ (calculate_scores gold_annots system_annots).log ∧
    1 ≤ (dictGet (calculate_scores gold_annots
      system_annots).scores none).false_negatives := by
  obtain ⟨l1, l2, rfl⟩ := List.append_of_mem hmem
  have hid_l1 : id ∉ l1.map Prod.fst := by
    rw [List.map_append, List.map_cons] at hnd
    have hd := List.disjoint_of_nodup_append hnd
    exact fun h => (hd h) (List.mem_cons_self _ _)
  unfold calculate_scores
  rw [List.foldl_append, List.foldl_cons]
  have hsys : alist_find id
      (l1.foldl calc_step ⟨fun _ => none, system_annots, []⟩).system_annots =
      alist_find id system_annots :=
    calc_fold_system_find_of_not_mem l1 _ id hid_l1
  have hsa : sys_annot_of
      (l1.foldl calc_step ⟨fun _ => none, system_annots, []⟩).system_annots id =
      sys_annot_of system_annots id := by
    unfold sys_annot_of
    rw [hsys]
  have hlog : ("Missing output for " ++ id) ∈
      (calc_step (l1.foldl calc_step ⟨fun _ => none, system_annots, []⟩) (id, a)).log := by
    simp only [calc_step, process_example_log, hsa]
    rcases hmiss with hA | hB
    · simp [hA, judgWarn]
    · simp [hB, judgWarn]
  have hd1 : 1 ≤ (example_delta
      (l1.foldl calc_step ⟨fun _ => none, system_annots, []⟩) id a).false_negatives := by
    unfold example_delta
    rw [hsa]
    rcases hmiss with hA | hB
    · rw [hA]
      simp [judgDelta, Scores.plus]
    · rw [hB]
      simp only [judgDelta, Scores.plus]
      omega
  have hfn1 : 1 ≤ (dictGet
      (calc_step (l1.foldl calc_step ⟨fun _ => none, system_annots, []⟩) (id, a)).scores
      none).false_negatives := by
    simp only [calc_step, process_example_get]
    split_ifs <;> simp_all [Scores.plus] <;> omega
  exact ⟨calc_fold_log_mem l2 _ _ hlog, le_trans hfn1 (calc_fold_fn_le l2 _ none)⟩

/-- Witness for C5: one gold example, empty system map. -/
theorem C5_missing_system_judgment_witness :
    ("Missing output for " ++ "1") ∈
      (calculate_scores [("1", ⟨some Gender.feminine, some true, some false⟩)] []).log ∧
    1 ≤ (dictGet (calculate_scores [("1", ⟨some Gender.feminine, some true, some false⟩)]
      []).scores none).false_negatives :=
  C5_missing_system_judgment _ _ (by decide) "1"
    ⟨some Gender.feminine, some true, some false⟩ (by decide) (Or.inl (by decide))

/-! ### Lemmas about `read_rows` -/

/-- The annotation a (first-occurrence) row parses to. -/
def annot_of_row (is_gold : Bool) (r : Row) : Annot :=
  { gender := if is_gold then alist_find (py_lower r.pronoun) PRONOUNS else none,
    name_a_coref := (is_true r.a_coref).1,
    name_b_coref := (is_true r.b_coref).1 }

theorem read_rows_find_mono (is_gold : Bool) (rows : List Row) :
    ∀ (annots : List (String × Annot)) (log : List String)
      (m : List (String × Annot)) (lg : List String),
      read_rows is_gold rows annots log = .ok (m, lg) →
      ∀ (key : String) (v : Annot), alist_find key annots = some v →
        alist_find key m = some v := by
  induction rows with
  | nil =>
    intro annots log m lg hread key v h
    simp only [read_rows, Except.ok.injEq, Prod.mk.injEq] at hread
    rw [← hread.1]
    exact h
  | cons r rest ih =>
    intro annots log m lg hread key v h
    simp only [read_rows] at hread
    by_cases hdup : (alist_find r.id annots).isSome
    · rw [if_pos hdup] at hread
      exact ih _ _ _ _ hread key v h
    · rw [if_neg hdup] at hread
      by_cases hg : is_gold
      · rw [if_pos hg] at hread
        by_cases hu : (alist_find (py_lower r.pronoun) PRONOUNS).getD Gender.unknown =
            Gender.unknown
        · rw [if_pos hu] at hread
          exact Except.noConfusion hread
        · rw [if_neg hu] at hread
          exact ih _ _ _ _ hread key v (alist_find_append_of_some key _ _ v h)
      · rw [if_neg hg] at hread
        exact ih _ _ _ _ hread key v (alist_find_append_of_some key _ _ v h)

theorem read_rows_log_ext (is_gold : Bool) (rows : List Row) :
    ∀ (annots : List (String × Annot)) (log : List String)
      (m : List (String × Annot)) (lg : List String),
      read_rows is_gold rows annots log = .ok (m, lg) →
      ∃ ext, lg = log ++ ext := by
  induction rows with
  | nil =>
    intro annots log m lg hread
    simp only [read_rows, Except.ok.injEq, Prod.mk.injEq] at hread
    exact ⟨[], by rw [← hread.2, List.append_nil]⟩
  | cons r rest ih =>
    intro annots log m lg hread
    simp only [read_rows] at hread
    by_cases hdup : (alist_find r.id annots).isSome
    · rw [if_pos hdup] at hread
      obtain ⟨ext, hext⟩ := ih _ _ _ _ hread
      exact ⟨("Multiple annotations for " ++ r.id) :: ext, by
        rw [hext, List.append_assoc]
        rfl⟩
    · rw [if_neg hdup] at hread
      by_cases hg : is_gold
      · rw [if_pos hg] at hread
        by_cases hu : (alist_find (py_lower r.pronoun) PRONOUNS).getD Gender.unknown =
            Gender.unknown
        · rw [if_pos hu] at hread
          exact Except.noConfusion hread
        · rw [if_neg hu] at hread
          obtain ⟨ext, hext⟩ := ih _ _ _ _ hread
          exact ⟨(is_true r.a_coref).2 ++ (is_true r.b_coref).2 ++ ext, by
            rw [hext]
            simp [List.append_assoc]⟩
      · rw [if_neg hg] at hread
        obtain ⟨ext, hext⟩ := ih _ _ _ _ hread
        exact ⟨(is_true r.a_coref).2 ++ (is_true r.b_coref).2 ++ ext, by
          rw [hext]
          simp [List.append_assoc]⟩

theorem read_rows_log_mem (is_gold : Bool) (rows : List Row)
    (annots : List (String × Annot)) (log : List String)
    (m : List (String × Annot)) (lg : List String)
    (hread : read_rows is_gold rows annots log = .ok (m, lg))
    (msg : String) (h : msg ∈ log) : msg ∈ lg := by
  obtain ⟨ext, hext⟩ := read_rows_log_ext is_gold rows annots log m lg hread
  rw [hext]
  exact List.mem_append_left _ h

theorem read_rows_mem_keys (is_gold : Bool) (rows : List Row) :
    ∀ (annots : List (String × Annot)) (log : List String)
      (m : List (String × Annot)) (lg : List String),
      read_rows is_gold rows annots log = .ok (m, lg) →
      ∀ r ∈ rows, (alist_find r.id m).isSome := by
  induction rows with
  | nil =>
    intro annots log m lg hread r hr
    exact absurd hr (List.not_mem_nil r)
  | cons r0 rest ih =>
    intro annots log m lg hread r hr
    simp only [read_rows] at hread
    by_cases hdup : (alist_find r0.id annots).isSome
    · rw [if_pos hdup] at hread
      rcases List.mem_cons.mp hr with heq | hmem
      · subst heq
        obtain ⟨v, hv⟩ := Option.isSome_iff_exists.mp hdup
        rw [read_rows_find_mono is_gold rest _ _ _ _ hread r.id v hv]
        rfl
      · exact ih _ _ _ _ hread r hmem
    · rw [if_neg hdup] at hread
      by_cases hg : is_gold
      · rw [if_pos hg] at hread
        by_cases hu : (alist_find (py_lower r0.pronoun) PRONOUNS).getD Gender.unknown =
            Gender.unknown
        · rw [if_pos hu] at hread
          exact Except.noConfusion hread
        · rw [if_neg hu] at hread
          rcases List.mem_cons.mp hr with heq | hmem
          · subst heq
            rw [read_rows_find_mono is_gold rest _ _ _ _ hread r.id _
              (alist_find_snoc_self r.id annots _ (Option.not_isSome_iff_eq_none.mp hdup))]
            rfl
          · exact ih _ _ _ _ hread r hmem
      · rw [if_neg hg] at hread
        rcases List.mem_cons.mp hr with heq | hmem
        · subst heq
          rw [read_rows_find_mono is_gold rest _ _ _ _ hread r.id _
            (alist_find_snoc_self r.id annots _ (Option.not_isSome_iff_eq_none.mp hdup))]
          rfl
        · exact ih _ _ _ _ hread r hmem

theorem read_rows_append (is_gold : Bool) (l1 : List Row) :
    ∀ (l2 : List Row) (annots : List (String × Annot)) (log : List String),
      read_rows is_gold (l1 ++ l2) annots log =
        match read_rows is_gold l1 annots log with
        | .ok p => read_rows is_gold l2 p.1 p.2
        | .error e => .error e := by
  induction l1 with
  | nil => intro l2 annots log; rfl
  | cons r rest ih =>
    intro l2 annots log
    rw [List.cons_append]
    simp only [read_rows]
    by_cases hdup : (alist_find r.id annots).isSome
    · rw [if_pos hdup, if_pos hdup]
      exact ih _ _ _
    · rw [if_neg hdup, if_neg hdup]
      by_cases hg : is_gold
      · rw [if_pos hg, if_pos hg]
        by_cases hu : (alist_find (py_lower r.pronoun) PRONOUNS).getD Gender.unknown =
            Gender.unknown
        · rw [if_pos hu, if_pos hu]
        · rw [if_neg hu, if_neg hu]
          exact ih _ _ _
      · rw [if_neg hg, if_neg hg]
        exact ih _ _ _

theorem read_rows_find_char (is_gold : Bool) (rows : List Row) :
    ∀ (annots : List (String × Annot)) (log : List String)
      (m : List (String × Annot)) (lg : List String),
      read_rows is_gold rows annots log = .ok (m, lg) →
      ∀ id : String, alist_find id m =
        match alist_find id annots with
        | some v => some v
        | none => (rows.find? (fun r => r.id == id)).map (annot_of_row is_gold) := by
  induction rows with
  | nil =>
    intro annots log m lg hread id
    simp only [read_rows, Except.ok.injEq, Prod.mk.injEq] at hread
    rw [← hread.1]
    cases alist_find id annots <;> simp [List.find?]
  | cons r rest ih =>
    intro annots log m lg hread id
    simp only [read_rows] at hread
    by_cases hdup : (alist_find r.id annots).isSome
    · rw [if_pos hdup] at hread
      rw [ih _ _ _ _ hread id]
      by_cases hid : r.id = id
      · obtain ⟨v, hv⟩ := Option.isSome_iff_exists.mp hdup
        rw [hid] at hv
        rw [hv]
      · rw [List.find?_cons_of_neg _ (by simp [hid])]
    · rw [if_neg hdup] at hread
      by_cases hg : is_gold
      · rw [if_pos hg] at hread
        by_cases hu : (alist_find (py_lower r.pronoun) PRONOUNS).getD Gender.unknown =
            Gender.unknown
        · rw [if_pos hu] at hread
          exact Except.noConfusion hread
        · rw [if_neg hu] at hread
          have hpron : alist_find (py_lower r.pronoun) PRONOUNS =
              some ((alist_find (py_lower r.pronoun) PRONOUNS).getD Gender.unknown) := by
            cases hp : alist_find (py_lower r.pronoun) PRONOUNS with
            | none => exact absurd (by rw [hp]; rfl) hu
            | some g => rfl
          have hval : annot_of_row is_gold r =
              ⟨some ((alist_find (py_lower r.pronoun) PRONOUNS).getD Gender.unknown),
                (is_true r.a_coref).1, (is_true r.b_coref).1⟩ := by
            simp only [annot_of_row, hg, if_pos]
            conv_lhs => rw [hpron]
          rw [← hval] at hread
          rw [ih _ _ _ _ hread id]
          by_cases hid : r.id = id
          · rw [← hid]
            rw [alist_find_snoc_self r.id annots _ (Option.not_isSome_iff_eq_none.mp hdup)]
            rw [Option.not_isSome_iff_eq_none.mp hdup]
            rw [List.find?_cons_of_pos _ (by simp)]
            rfl
          · rw [alist_find_snoc_other id r.id annots _ hid]
            cases alist_find id annots with
            | some v => rfl
            | none => rw [List.find?_cons_of_neg _ (by simp [hid])]
      · rw [if_neg hg] at hread
        have hval : annot_of_row is_gold r =
            ⟨none, (is_true r.a_coref).1, (is_true r.b_coref).1⟩ := by
          simp only [annot_of_row]
          rw [if_neg hg]
        rw [← hval] at hread
        rw [ih _ _ _ _ hread id]
        by_cases hid : r.id = id
        · rw [← hid]
          rw [alist_find_snoc_self r.id annots _ (Option.not_isSome_iff_eq_none.mp hdup)]
          rw [Option.not_isSome_iff_eq_none.mp hdup]
          rw [List.find?_cons_of_pos _ (by simp)]
          rfl
        · rw [alist_find_snoc_other id r.id annots _ hid]
          cases alist_find id annots with
          | some v => rfl
          | none => rw [List.find?_cons_of_neg _ (by simp [hid])]

theorem read_rows_dup_warn (is_gold : Bool) (rows : List Row) :
    ∀ (annots : List (String × Annot)) (log : List String)
      (m : List (String × Annot)) (lg : List String),
      read_rows is_gold rows annots log = .ok (m, lg) →
      ∀ r ∈ rows, (alist_find r.id annots).isSome →
        ("Multiple annotations for " ++ r.id) ∈ lg := by
  induction rows with
  | nil =>
    intro annots log m lg hread r hr
    exact absurd hr (List.not_mem_nil r)
  | cons r0 rest ih =>
    intro annots log m lg hread r hr hsome
    simp only [read_rows] at hread
    by_cases hdup : (alist_find r0.id annots).isSome
    · rw [if_pos hdup] at hread
      rcases List.mem_cons.mp hr with heq | hmem
      · subst heq
        exact read_rows_log_mem is_gold rest _ _ _ _ hread _
          (List.mem_append_right _ (List.mem_singleton.mpr rfl))
      · exact ih _ _ _ _ hread r hmem hsome
    · rw [if_neg hdup] at hread
      rcases List.mem_cons.mp hr with heq | hmem
      · subst heq
        exact absurd hsome hdup
      · obtain ⟨v, hv⟩ := Option.isSome_iff_exists.mp hsome
        by_cases hg : is_gold
        · rw [if_pos hg] at hread
          by_cases hu : (alist_find (py_lower r0.pronoun) PRONOUNS).getD Gender.unknown =
              Gender.unknown
          · rw [if_pos hu] at hread
            exact Except.noConfusion hread
          · rw [if_neg hu] at hread
            exact ih _ _ _ _ hread r hmem
              (by rw [alist_find_append_of_some r.id annots _ v hv]; rfl)
        · rw [if_neg hg] at hread
          exact ih _ _ _ _ hread r hmem
            (by rw [alist_find_append_of_some r.id annots _ v hv]; rfl)

/-- C7: when two or more data rows share an example ID, `read_annotations`
keeps exactly the first-seen row's parsed values for that ID (the returned
map agrees with `find?` on the row list, so no field of the first-seen
annotation is ever overwritten or merged), and every later row with a
repeated ID is skipped with a `Multiple annotations` warning. -/
theorem C7_first_occurrence_wins (rows : List Row) (is_gold : Bool)
    (m : List (String × Annot)) (lg : List String)
    (hread : read_annots rows is_gold = .ok (m, lg)) :
    (∀ id : String, alist_find id m =
      (rows.find? (fun r => r.id == id)).map (annot_of_row is_gold)) ∧
    (∀ (l1 : List Row) (r : Row) (l2 : List Row) (r0 : Row),
      rows = l1 ++ r :: l2 → r0 ∈ l1 → r0.id = r.id →
      ("Multiple annotations for " ++ r.id) ∈ lg) := by
  rw [read_annots] at hread
  constructor
  · intro id
    have h := read_rows_find_char is_gold rows [] [] m lg hread id
    simpa [alist_find] using h
  · intro l1 r l2 r0 hrows hr0 hid
    subst hrows
    rw [read_rows_append is_gold l1 (r :: l2) [] []] at hread
    cases h1 : read_rows is_gold l1 [] [] with
    | error e =>
      rw [h1] at hread
      exact Except.noConfusion hread
    | ok p =>
      obtain ⟨a1, lg1⟩ := p
      rw [h1] at hread
      have hkey : (alist_find r0.id a1).isSome :=
        read_rows_mem_keys is_gold l1 _ _ _ _ h1 r0 hr0
      rw [hid] at hkey
      exact read_rows_dup_warn is_gold (r :: l2) _ _ _ _ hread r
        (List.mem_cons_self _ _) hkey

/-- Witness for C7: a system file with two rows sharing ID `1`. -/
theorem C7_first_occurrence_wins_witness :
    alist_find "1" [("1", (⟨none, some true, some false⟩ : Annot))] =
      (([⟨"1", "x", "TRUE", "FALSE"⟩, ⟨"1", "x", "FALSE", "TRUE"⟩] : List Row).find?
        (fun r => r.id == "1")).map (annot_of_row false) ∧
    ("Multiple annotations for " ++ "1") ∈ ["Multiple annotations for 1"] := by
  have h := C7_first_occurrence_wins
    [⟨"1", "x", "TRUE", "FALSE"⟩, ⟨"1", "x", "FALSE", "TRUE"⟩] false
    [("1", ⟨none, some true, some false⟩)] ["Multiple annotations for 1"] (by decide)
  exact ⟨h.1 "1", h.2 [⟨"1", "x", "TRUE", "FALSE"⟩] ⟨"1", "x", "FALSE", "TRUE"⟩ []
    ⟨"1", "x", "TRUE", "FALSE"⟩ rfl (by decide) rfl⟩

theorem read_rows_sys_total (rows : List Row) :
    ∀ (annots : List (String × Annot)) (log : List String),
      ∃ p, read_rows false rows annots log = .ok p := by
  induction rows with
  | nil => exact fun annots log => ⟨(annots, log), rfl⟩
  | cons r rest ih =>
    intro annots log
    simp only [read_rows]
    by_cases hdup : (alist_find r.id annots).isSome
    · rw [if_pos hdup]
      exact ih _ _
    · rw [if_neg hdup, if_neg (by simp : ¬(false = true))]
      exact ih _ _

/-- C6: a coref field parses to true exactly when its lower-cased value is
`true` and to false exactly when it is `false`; any other value is parsed as
absent with an `Unexpected label!` warning, the row is still recorded, and a
system read never aborts (in particular not because of an unparseable coref
value). -/
theorem C6_coref_parsing :
    (∀ v : String,
      ((is_true v).1 = some true ↔ py_lower v = "true") ∧
      ((is_true v).1 = some false ↔ py_lower v = "false") ∧
      ((is_true v).1 = none ↔ (py_lower v ≠ "true" ∧ py_lower v ≠ "false")) ∧
      ((is_true v).1 = none → ("Unexpected label! " ++ v) ∈ (is_true v).2)) ∧
    (∀ rows : List Row, ∃ p, read_annots rows false = .ok p) ∧
    (∀ (rows : List Row) (m : List (String × Annot)) (lg : List String),
      read_annots rows false = .ok (m, lg) → ∀ r ∈ rows, (alist_find r.id m).isSome) := by
  refine ⟨fun v => ?_, fun rows => read_rows_sys_total rows [] [],
    fun rows m lg h r hr => read_rows_mem_keys false rows [] [] m lg h r hr⟩
  unfold is_true
  split_ifs with h1 h2 <;> simp_all

/-- Witness for C6 at the unparseable label `maybe`. -/
theorem C6_coref_parsing_witness :
    ("Unexpected label! " ++ "maybe") ∈ (is_true "maybe").2 ∧
    (∃ p, read_annots [⟨"1", "x", "maybe", "FALSE"⟩] false = .ok p) :=
  ⟨(C6_coref_parsing.1 "maybe").2.2.2 (by decide), C6_coref_parsing.2.1 _⟩

/-- Abstract condition under which the gold read hits the pronoun assertion:
some data row whose ID has not already been seen (rows with repeated IDs are
skipped before the pronoun is examined) has a lower-cased pronoun outside the
pronoun table. -/
def has_bad_new_pronoun : List Row → List String → Bool
  | [], _ => false
  | r :: rest, seen =>
    if r.id ∈ seen then has_bad_new_pronoun rest seen
    else if (alist_find (py_lower r.pronoun) PRONOUNS).getD Gender.unknown =
        Gender.unknown then true
    else has_bad_new_pronoun rest (r.id :: seen)

theorem read_rows_gold_error_iff (rows : List Row) :
    ∀ (annots : List (String × Annot)) (log : List String) (seen : List String),
      (∀ k, k ∈ seen ↔ (alist_find k annots).isSome) →
      ((∃ e, read_rows true rows annots log = .error e) ↔
        has_bad_new_pronoun rows seen = true) := by
  induction rows with
  | nil =>
    intro annots log seen hseen
    simp [read_rows, has_bad_new_pronoun]
  | cons r rest ih =>
    intro annots log seen hseen
    simp only [read_rows, has_bad_new_pronoun]
    by_cases hdup : (alist_find r.id annots).isSome
    · rw [if_pos hdup, if_pos ((hseen r.id).mpr hdup)]
      exact ih _ _ _ hseen
    · rw [if_neg hdup, if_neg (fun h => hdup ((hseen r.id).mp h))]
      simp only [if_true]
      by_cases hu : (alist_find (py_lower r.pronoun) PRONOUNS).getD Gender.unknown =
          Gender.unknown
      · rw [if_pos hu, if_pos hu]
        simp
      · rw [if_neg hu, if_neg hu]
        apply ih
        intro k
        constructor
        · intro hk
          rcases List.mem_cons.mp hk with heq | hmem
          · subst heq
            rw [alist_find_snoc_self r.id annots _ (Option.not_isSome_iff_eq_none.mp hdup)]
            rfl
          · obtain ⟨v, hv⟩ := Option.isSome_iff_exists.mp ((hseen k).mp hmem)
            rw [alist_find_append_of_some k annots _ v hv]
            rfl
        · intro hk
          by_cases hkr : r.id = k
          · exact hkr ▸ List.mem_cons_self _ _
          · rw [alist_find_snoc_other k r.id annots _ hkr] at hk
            exact List.mem_cons_of_mem _ ((hseen k).mpr hk)

/-- C4 (amended): `run_scorer` fails whenever the gold read yields an empty
map or the system read yields an empty map; the gold read aborts exactly when
some data row whose ID has not already appeared (rows with repeated IDs are
skipped before the pronoun check) has an unrecognized lower-cased pronoun;
and when both reads return nonempty maps a scorecard string is returned. -/
theorem C4_failure_behaviour :
    (∀ (gold_rows system_rows : List Row) (glog : List String),
      read_annots gold_rows true = .ok ([], glog) →
      ∃ e, run_scorer gold_rows system_rows = .error e) ∧
    (∀ (gold_rows system_rows : List Row) (slog : List String),
      read_annots system_rows false = .ok ([], slog) →
      ∃ e, run_scorer gold_rows system_rows = .error e) ∧
    (∀ gold_rows : List Row,
      (∃ e, read_annots gold_rows true = .error e) ↔
        has_bad_new_pronoun gold_rows [] = true) ∧
    (∀ (gold_rows system_rows : List Row) (gm : List (String × Annot))
        (glog : List String) (sm : List (String × Annot)) (slog : List String),
      read_annots gold_rows true = .ok (gm, glog) → gm ≠ [] →
      read_annots system_rows false = .ok (sm, slog) → sm ≠ [] →
      ∃ s, run_scorer gold_rows system_rows = .ok s) := by
  refine ⟨?_, ?_, ?_, ?_⟩
  · intro gr sr glog hg
    exact ⟨"No gold annotations read!", by simp [run_scorer, hg]⟩
  · intro gr sr slog hs
    cases hg : read_annots gr true with
    | error e => exact ⟨e, by simp [run_scorer, hg]⟩
    | ok g =>
      by_cases hge : g.1 = []
      · exact ⟨"No gold annotations read!", by simp [run_scorer, hg, hge]⟩
      · exact ⟨"No system annotations read!", by simp [run_scorer, hg, hge, hs]⟩
  · intro gr
    unfold read_annots
    exact read_rows_gold_error_iff gr [] [] [] (by simp [alist_find])
  · intro gr sr gm glog sm slog hg hgne hs hsne
    exact ⟨make_scorecard (calculate_scores gm sm).scores,
      by simp [run_scorer, hg, hs, hgne, hsne]⟩

/-- Counterexample to C4 as stated: the second data row has the unknown
pronoun `xyz`, but because its ID repeats an earlier row's ID it is skipped
before the pronoun assertion, so the gold read returns normally instead of
terminating abnormally. -/
theorem C4_counterexample :
    ((alist_find (py_lower "xyz") PRONOUNS).getD Gender.unknown = Gender.unknown) ∧
    read_annots [⟨"1", "she", "TRUE", "FALSE"⟩, ⟨"1", "xyz", "TRUE", "FALSE"⟩] true =
      .ok ([("1", ⟨some Gender.feminine, some true, some false⟩)],
        ["Multiple annotations for 1"]) :=
  ⟨by decide, by decide⟩

/-- Witness for C4: a valid one-row gold file and one-row system file produce
a scorecard. -/
theorem C4_failure_behaviour_witness :
    ∃ s, run_scorer [⟨"1", "she", "TRUE", "FALSE"⟩] [⟨"1", "x", "TRUE", "FALSE"⟩] =
      .ok s :=
  C4_failure_behaviour.2.2.2 _ _ [("1", ⟨some Gender.feminine, some true, some false⟩)] []
    [("1", ⟨none, some true, some false⟩)] [] (by decide) (by decide) (by decide) (by decide)

/-! ### Scorecard rendering -/

/-- The three text lines `make_scorecard` renders for one display
category. -/
def scorecard_block (display_name : String) (gs : Scores) : List String :=
  [display_name ++ " recall: " ++ format_fixed 1 gs.recall_ ++ " precision: " ++
    format_fixed 1 gs.precision ++ " f1: " ++ format_fixed 1 gs.f1,
   "\t\ttp " ++ toString gs.true_positives ++ "\tfp " ++ toString gs.false_positives,
   "\t\tfn " ++ toString gs.false_negatives ++ "\ttn " ++ toString gs.true_negatives]

theorem format_fixed_two_ne_dash (q : ℚ) : format_fixed 2 q ≠ "-" := by
  intro h
  have hlen := congrArg String.length h
  simp [format_fixed, pad_zeros, String.length_append,
    show String.length (".") = 1 from rfl, show String.length ("-") = 1 from rfl,
    show String.length ("") = 0 from rfl] at hlen
  omega

/-- C8: the scorecard consists of the blocks for Overall, Masculine and
Feminine in that fixed order, each rendered from the stored tally or from a
zero tally when the category is absent, followed by the bias line, which
shows the ratio feminine F1 / masculine F1 to two decimals when both F1
values are nonzero and the literal placeholder `-` whenever either F1 is
exactly zero (the two-decimal rendering can never be confused with the
placeholder); on the empty scores map this yields the all-zero scorecard. -/
theorem C8_scorecard_layout :
    (∀ scores : Option Gender → Option Scores,
      make_scorecard scores = String.intercalate ("\n")
        (scorecard_block "Overall" (dictGet scores none) ++
         scorecard_block "Masculine" (dictGet scores (some Gender.masculine)) ++
         scorecard_block "Feminine" (dictGet scores (some Gender.feminine)) ++
         ["Bias (F/M): " ++
           (if (dictGet scores (some Gender.masculine)).f1 ≠ 0 ∧
               (dictGet scores (some Gender.feminine)).f1 ≠ 0 then
             format_fixed 2 ((dictGet scores (some Gender.feminine)).f1 /
               (dictGet scores (some Gender.masculine)).f1)
            else "-") ++ "\n"])) ∧
    (∀ q : ℚ, format_fixed 2 q ≠ "-") ∧
    make_scorecard (fun _ => none) =
      "Overall recall: 0.0 precision: 0.0 f1: 0.0\n\t\ttp 0\tfp 0\n\t\tfn 0\ttn 0\nMasculine recall: 0.0 precision: 0.0 f1: 0.0\n\t\ttp 0\tfp 0\n\t\tfn 0\ttn 0\nFeminine recall: 0.0 precision: 0.0 f1: 0.0\n\t\ttp 0\tfp 0\n\t\tfn 0\ttn 0\nBias (F/M): -\n" := by
  refine ⟨fun scores => ?_, format_fixed_two_ne_dash, ?_⟩
  · simp [make_scorecard, scorecard_block]
  · simp only [make_scorecard, dictGet, List.foldl]
    simp [Scores.f1, Scores.recall_, Scores.precision, format_fixed, pad_zeros]
    decide

/-- Witness for C8: the layout theorem applied to the empty scores map. -/
theorem C8_scorecard_layout_witness :
    make_scorecard (fun _ => none) = String.intercalate ("\n")
      (scorecard_block "Overall" (dictGet (fun _ => none) none) ++
       scorecard_block "Masculine" (dictGet (fun _ => none) (some Gender.masculine)) ++
       scorecard_block "Feminine" (dictGet (fun _ => none) (some Gender.feminine)) ++
       ["Bias (F/M): " ++
         (if (dictGet (fun _ => none) (some Gender.masculine)).f1 ≠ 0 ∧
             (dictGet (fun _ => none) (some Gender.feminine)).f1 ≠ 0 then
           format_fixed 2 ((dictGet (fun _ => none) (some Gender.feminine)).f1 /
             (dictGet (fun _ => none) (some Gender.masculine)).f1)
          else "-") ++ "\n"]) :=
  C8_scorecard_layout.1 (fun _ => none)
